import Mathlib

/-
Verification of the PyYapf Sublime Text plugin (PyYapf.py) against its
natural-language specification.

The plugin is embedded shallowly: Python strings are Lean `String`s, the
Python string operations used by the plugin (`strip`, `split`, `join`,
`rstrip`, `find`, slicing, `int()`) are modelled on the underlying
`List Char`, exceptions become `Except PyErr`, dictionaries become
association lists, and all side effects (temp files, the subprocess,
Sublime API calls) become an explicit trace of `Effect`s produced by pure
functions.  The external world (the view, the settings, the encoder, the
yapf subprocess and the file system contents) is a record of functions the
embedded `run` consumes.
-/

namespace PyYapf

instance {ε α : Type} [DecidableEq ε] [DecidableEq α] : DecidableEq (Except ε α) := fun x y =>
  match x, y with
  | .ok a, .ok b => if h : a = b then .isTrue (by rw [h]) else .isFalse (by simp [h])
  | .error a, .error b => if h : a = b then .isTrue (by rw [h]) else .isFalse (by simp [h])
  | .ok _, .error _ => .isFalse (by simp)
  | .error _, .ok _ => .isFalse (by simp)

/-! ## Python string primitives -/

/-- Whitespace characters stripped by Python's `str.strip()`. -/
def isPySpace (c : Char) : Bool :=
  c = ' ' || c = '\t' || c = '\n' || c = '\r' || c = '\x0b' || c = '\x0c'

/-- Python `s.strip()`: remove leading and trailing whitespace. -/
def pyStrip (s : String) : String :=
  ⟨((s.data.dropWhile isPySpace).reverse.dropWhile isPySpace).reverse⟩

/-- Split a character list at every occurrence of `c`; the result is always
nonempty, matching Python's `str.split(sep)` with an explicit separator. -/
def splitChar (c : Char) : List Char → List (List Char)
  | [] => [[]]
  | x :: xs =>
    if x = c then [] :: splitChar c xs
    else
      match splitChar c xs with
      | g :: gs => (x :: g) :: gs
      | [] => [[x]]

/-- Python `s.split(c)` for a one-character separator. -/
def pySplit (c : Char) (s : String) : List String :=
  (splitChar c s.data).map (fun l => ⟨l⟩)

/-- Python `sep.join(xs)`. -/
def pyJoin (sep : String) (xs : List String) : String :=
  String.intercalate sep xs

/-- Python `s.rstrip(c)` for a one-character strip set. -/
def pyRstrip (c : Char) (s : String) : String :=
  ⟨(s.data.reverse.dropWhile (fun x => x = c)).reverse⟩

/-- Python `s[n:]` for a nonnegative start index. -/
def pyDrop (s : String) (n : Nat) : String := ⟨s.data.drop n⟩

/-- Python `s[1:-1]`. -/
def pySliceTrim (s : String) : String := ⟨(s.data.drop 1).dropLast⟩

/-- Python `s.find(c) + 1`: one past the first occurrence of `c`, or `0`
when `c` does not occur (`find` returns `-1` there). -/
def pyFindSucc (c : Char) (s : String) : Nat :=
  match s.data.findIdx? (fun x => x = c) with
  | some i => i + 1
  | none => 0

/-- Numeric value of a digit list (most significant first). -/
def digitsToNat (l : List Char) : Nat :=
  l.foldl (fun a c => a * 10 + (c.toNat - 48)) 0

/-- Python `int(s)`: strip whitespace, optional sign, then decimal digits;
`none` models the `ValueError` raised on anything else. -/
def pyInt (s : String) : Option Int :=
  match (pyStrip s).data with
  | [] => none
  | c :: rest =>
    if c = '-' then
      if rest ≠ [] ∧ rest.all Char.isDigit then some (-(digitsToNat rest : Int)) else none
    else if c = '+' then
      if rest ≠ [] ∧ rest.all Char.isDigit then some (digitsToNat rest : Int) else none
    else if (c :: rest).all Char.isDigit then some (digitsToNat (c :: rest) : Int) else none

/-! ## Python exceptions and dictionaries -/

/-- The Python exceptions the plugin can raise while parsing or running. -/
inductive PyErr where
  | valueError (msg : String)
  | keyError (msg : String)
  | indexError (msg : String)
  | typeError (msg : String)
deriving DecidableEq

/-- A Python `dict` with string keys and values, in insertion order. -/
abbrev Dict := List (String × String)

/-- Lookup in a `Dict` (`d[k]` on the right-hand side). -/
def dictGet (d : Dict) (k : String) : Option String :=
  (d.find? (fun p => p.1 = k)).map (·.2)

/-- Assignment `d[k] = v`: overwrite in place when the key exists,
otherwise append (insertion order). -/
def dictSet (d : Dict) (k v : String) : Dict :=
  if d.any (fun p => p.1 = k) then
    d.map (fun p => if p.1 = k then (p.1, v) else p)
  else d ++ [(k, v)]

/-! ## failure_parser (PyYapf.py lines 16-58) -/

/-- A `UnicodeEncodeError` exception object, with the attributes the plugin
reads (`reason`, `message`, `start`). -/
structure UEErr where
  reason : String
  message : String
  start : Nat
deriving DecidableEq

/-- The input of `failure_parser`: either an actual `UnicodeEncodeError`
exception object or the stderr string from yapf (the `isinstance` test on
line 21). -/
inductive FailureInput where
  | exc (e : UEErr)
  | str (s : String)

/-- The string `"(\"\", %i)" % n` used for the `context` entry. -/
def contextVal (n : Int) : String := "(\"\", " ++ toString n ++ ")"

/-- State of the `for element in detail.split(' ')` loop in
`failure_parser`: the dictionary built so far, the `stripped_comma` flag
and the current `key` (initially `None`). -/
structure LoopSt where
  tval : Dict
  stripped_comma : Bool
  key : Option String
deriving DecidableEq

/-- One iteration of the detail-collection loop (lines 43-56): skip blank
elements; an element containing `=` is split into a key and a value, the
value's trailing comma is stripped (recording whether one was stripped)
and stored; any other element is appended to the previous key's value,
re-prefixed with `", "` when a comma had just been stripped.  Errors model
the `ValueError` of a multi-`=` unpack, the `IndexError` of `value[-1]` on
an empty value, and the `KeyError` of `tval[key]` with no previous key. -/
def procElement (st : LoopSt) (el : String) : Except PyErr LoopSt :=
  let element := pyStrip el
  if element = "" then .ok st
  else if '=' ∈ element.data then
    match pySplit '=' element with
    | [key, value] =>
      match value.data.getLast? with
      | none => .error (.indexError "string index out of range")
      | some last =>
        .ok ⟨dictSet st.tval key (pyRstrip ',' value), last = ',', some key⟩
    | _ => .error (.valueError "too many values to unpack")
  else
    let element := if st.stripped_comma then ", " ++ element else element
    match st.key with
    | none => .error (.keyError "None")
    | some k =>
      match dictGet st.tval k with
      | none => .error (.keyError k)
      | some old => .ok ⟨dictSet st.tval k (old ++ element), false, some k⟩

/-- Run the detail-collection loop over `detail.split(' ')` and return the
final dictionary. -/
def collectDetail (detail : String) : Except PyErr Dict :=
  ((pySplit ' ' detail).foldlM procElement ⟨[], false, none⟩).map LoopSt.tval

/-- The last line of the stripped input (`in_failure.strip().split('\n')[-1]`). -/
def pyLastLine (s : String) : String :=
  (pySplit '\n' (pyStrip s)).getLastD ""

/-- The detail of a last line: `":".join(lastline.strip().split(':')[2:])`. -/
def detailOf (lastline : String) : String :=
  pyJoin ":" ((pySplit ':' (pyStrip lastline)).drop 2)

/-- Embeds `failure_parser` (PyYapf.py lines 16-58).  A
`UnicodeEncodeError` exception yields its `reason`, `message` and a
`context` entry built from its `start` offset.  A string is reduced to its
last line, which is split on colons into an error name, a message and a
detail; a `UnicodeEncodeError` error name yields a `context` entry from
the integer after the last `-` of the message, and any other error name
runs the key-value collection loop over the detail. -/
def failureParse : FailureInput → Except PyErr (String × String × Dict)
  | .exc e => .ok (e.reason, e.message, [("context", contextVal e.start)])
  | .str s =>
    let lastline := pyLastLine s
    match pySplit ':' lastline with
    | f0 :: f1 :: _ =>
      if f0 = "UnicodeEncodeError" then
        match pyInt ((pySplit '-' f1).getLastD "") with
        | some n => .ok (f0, f1, [("context", contextVal n)])
        | none => .error (.valueError "invalid literal for int()")
      else
        (collectDetail (detailOf lastline)).map (fun tv => (f0, f1, tv))
    | _ => .error (.valueError "need more than 1 value to unpack")

-- sanity checks against hand-traced Python behaviour
example :
    failureParse (.str "UnicodeEncodeError: 'ascii' codec can't encode characters in position 175337-175339: ordinal not in range(128)") =
      .ok ("UnicodeEncodeError",
        " 'ascii' codec can't encode characters in position 175337-175339",
        [("context", "(\"\", 175339)")]) := by decide

example :
    failureParse (.str "trace\nValueError: bad: pos=(1, 2) size=3") =
      .ok ("ValueError", " bad", [("pos", "(1, 2)"), ("size", "3")]) := by decide

example : failureParse (.str "no colon at all") =
    .error (.valueError "need more than 1 value to unpack") := by decide

/-! ## The editor model -/

/-- A Sublime `Region(a, b)`; `empty()` is `a = b`. -/
structure Region where
  a : Nat
  b : Nat
deriving DecidableEq

/-- The Sublime view, as the plugin observes it: its declared encoding, its
size, its current selection list, and its `substr`, `text_point` and `line`
API functions. -/
structure View where
  encoding : String
  size : Nat
  sel : List Region
  substr : Region → String
  text_point : Int → Int → Int
  line : Int → Region

/-- The `PyYapf.sublime-settings` object: each recognized key is either
present with a value or absent (`settings.get` then supplies the default). -/
structure Settings where
  use_entire_file_if_no_selection : Option Bool
  yapf_command : Option String
  config : Option Dict

/-- `settings.get("use_entire_file_if_no_selection", True)`. -/
def Settings.useEntire (s : Settings) : Bool :=
  s.use_entire_file_if_no_selection.getD true

/-- `settings.get("yapf_command", "/usr/local/bin/yapf")`. -/
def Settings.yapf (s : Settings) : String :=
  s.yapf_command.getD "/usr/local/bin/yapf"

/-- `settings.get("config", \x7b\x7d)`. -/
def Settings.styleConfig (s : Settings) : Dict :=
  s.config.getD []

/-- The world outside the plugin: the text encoder (which may raise
`UnicodeEncodeError`), the yapf subprocess (argument list to
`(stdout, stderr)`), and the contents read back from a file with a given
encoding after yapf ran. -/
structure Exec where
  encode : String → String → Except UEErr String
  yapf : List String → String × String
  fileContent : String → String → String

/-- One observable side effect of the plugin, in program order. -/
inductive Effect where
  | createTemp (name : String)
  | encodeText (text encoding : String)
  | writeFile (name content : String)
  | readFile (name encoding : String)
  | spawn (cmd : List String)
  | replaceText (region : Region) (text : String)
  | errorMessage (text : String)
  | eraseRegions (key : String)
  | addRegions (key : String) (regions : List Region) (scope flags : String)
  | showAtCenter (region : Region)
  | unlink (name : String)
deriving DecidableEq

/-- The region key `KEY = "pyyapf"`. -/
def KEY : String := "pyyapf"

/-- Name of the `k`-th file `tempfile.mkstemp` hands out in a run. -/
def tmpName (k : Nat) : String := "/tmp/tmp" ++ toString k

/-- Name of the temporary source file (`mkstemp(suffix=".py")`). -/
def pyTmpName (k : Nat) : String := tmpName k ++ ".py"

/-! ## smart_failure (lines 85-123) -/

/-- Python `repr` of a string, modelled for quote choice only: single
quotes unless the string itself holds a single quote and no double quote. -/
def pyReprStr (s : String) : String :=
  if Char.ofNat 39 ∈ s.data ∧ Char.ofNat 34 ∉ s.data then
    "\"" ++ s ++ "\""
  else "'" ++ s ++ "'"

/-- Python `repr` of a `Dict` (insertion order). -/
def pyReprDict (d : Dict) : String :=
  "\x7b" ++ String.intercalate ", "
    (d.map (fun p => pyReprStr p.1 ++ ": " ++ pyReprStr p.2)) ++ "\x7d"

/-- The modal text `"\x7b0\x7d\n\x7b1\x7d\n\n\x7b2\x7d".format(err, msg, repr(context_dict))`. -/
def failMsg (err msg : String) (tval : Dict) : String :=
  err ++ "\n" ++ msg ++ "\n\n" ++ pyReprDict tval

/-- Highlight and centre the view on `point` (lines 114-121): clear the
plugin's regions, add the line of `point` as a region, show it. -/
def centerOn (view : View) (point : Int) : List Effect :=
  let region := view.line point
  [.eraseRegions KEY, .addRegions KEY [region] "pyyapf" "dot", .showAtCenter region]

/-- The location computed by the `'context' in context_dict` branch of
`smart_failure` (lines 96-112): strip the outer parens of the context
string, drop through the first comma, and read either a `(row, col)` pair
(via `text_point(row - 1, col - 1)`) or a bare character offset.  Errors
model the `IndexError` of `rowcol[0]` on an empty remainder and the
`ValueError`s of `int()` and of unpacking `rowcol.split(',')`. -/
def contextPoint (view : View) (ctx : String) : Except PyErr Int :=
  let rc0 := pySliceTrim ctx
  let rc := pyStrip (pyDrop rc0 (pyFindSucc ',' rc0))
  match rc.data.head? with
  | none => .error (.indexError "string index out of range")
  | some c0 =>
    if c0 = '(' then
      match pySplit ',' (pySliceTrim rc) with
      | [rowS, colS] =>
        match pyInt colS with
        | none => .error (.valueError "invalid literal for int()")
        | some col =>
          match pyInt rowS with
          | none => .error (.valueError "invalid literal for int()")
          | some row => .ok (view.text_point (row - 1) (col - 1))
      | _ => .error (.valueError "unpack")
    else
      match pyInt rc with
      | none => .error (.valueError "invalid literal for int()")
      | some point => .ok point

/-- The `'context' in context_dict` branch of `smart_failure` (lines
96-121): compute the location and, on success, highlight and centre it. -/
def showContext (view : View) (ctx : String) : List Effect × Except PyErr Unit :=
  match contextPoint view ctx with
  | .error e => ([], .error e)
  | .ok p => (centerOn view p, .ok ())

/-- Embeds `YapfCommand.smart_failure` (lines 85-123): parse the failure,
show the modal error message, and when a `context` entry is present try to
centre the view on the location it encodes.  The trace holds the effects
emitted before any exception; the `Except` is the exception that escapes. -/
def smartFailure (view : View) (f : FailureInput) : List Effect × Except PyErr Unit :=
  match failureParse f with
  | .error e => ([], .error e)
  | .ok (err, msg, tval) =>
    let e1 : Effect := .errorMessage (failMsg err msg tval)
    match dictGet tval "context" with
    | none => ([e1], .ok ())
    | some ctx =>
      let (t, r) := showContext view ctx
      (e1 :: t, r)

/-! ## save_selection_to_tempfile, save_style_to_tempfile (lines 61-75, 125-141) -/

/-- Embeds `YapfCommand.save_selection_to_tempfile` (lines 125-141): make a
temp file, encode the selection's text (recording the attempt), and either
write the bytes and return the file name, or hand the
`UnicodeEncodeError` to `smart_failure` and return `None` — note the temp
file is not removed on that path. -/
def saveSelectionToTempfile (env : Exec) (view : View) (k : Nat) (selection : Region)
    (encoding : String) : List Effect × Except PyErr (Option String) :=
  let filename := pyTmpName k
  let text := view.substr selection
  let effs : List Effect := [.createTemp filename, .encodeText text encoding]
  match env.encode text encoding with
  | .error e =>
    let (effs2, r) := smartFailure view (.exc e)
    (effs ++ effs2, match r with | .ok _ => .ok none | .error pe => .error pe)
  | .ok bytes => (effs ++ [.writeFile filename bytes], .ok (some filename))

/-- Python `str.lower()` (ASCII lowercasing, on the character list). -/
def pyLower (s : String) : String := ⟨s.data.map Char.toLower⟩

/-- `RawConfigParser.set`: store under the option name transformed by
`optionxform`, which lowercases it (option names in this config format are
case-insensitive). -/
def cfgSet (secs : List (String × Dict)) (sec key value : String) : List (String × Dict) :=
  secs.map (fun s => if s.1 = sec then (s.1, dictSet s.2 (pyLower key) value) else s)

/-- The sections built by `add_section('style')` followed by one
`set('style', key, in_dict[key])` per entry. -/
def styleSections (d : Dict) : List (String × Dict) :=
  d.foldl (fun secs p => cfgSet secs "style" p.1 p.2) [("style", [])]

/-- `RawConfigParser.write` replaces each newline in a value by a newline
plus a tab. -/
def nlReplace (s : String) : String :=
  ⟨s.data.foldr (fun c acc => if c = '\n' then '\n' :: '\t' :: acc else c :: acc) []⟩

/-- `RawConfigParser.write`: each section as a `[name]` header, one
`key = value` line per option, then a blank line. -/
def configWrite (secs : List (String × Dict)) : String :=
  String.join (secs.map (fun sec =>
    "[" ++ sec.1 ++ "]\n" ++
    String.join (sec.2.map (fun p => p.1 ++ " = " ++ nlReplace p.2 ++ "\n")) ++ "\n"))

/-- Embeds `save_style_to_tempfile` (lines 61-75): build a one-section
`style` config from the style dictionary, write it to a fresh temp file
and return that file's name. -/
def saveStyleToTempfile (d : Dict) (k : Nat) : List Effect × String :=
  let filename := tmpName k
  ([.createTemp filename, .writeFile filename (configWrite (styleSections d))], filename)

/-! ## run (lines 143-202) -/

/-- The yapf command line (lines 173-175): configured command, style-file
flag, verification flag, in-place flag, temp source file name. -/
def cmdOf (settings : Settings) (k : Nat) : List String :=
  [settings.yapf, "--style=" ++ tmpName (k + 1), "--verify", "--in-place", pyTmpName k]

/-- The effects of the non-empty-stderr branch (lines 190-197): run
`smart_failure` on the stderr text; when it raises, the handler shows the
raw stderr text instead.  Either way the exception stops there. -/
def stderrEffects (view : View) (serr : String) : List Effect :=
  let (es, r) := smartFailure view (.str serr)
  match r with
  | .ok _ => es
  | .error _ => es ++ [.errorMessage serr]

/-- The `if selection:` body of the loop (lines 167-200): write the
selection to a temp source file, write the style temp file, invoke yapf,
read the temp file back, replace the selection or report the error, and
unlink both temp files.  When the selection could not be encoded,
`py_filename` is `None`; the style file is still created and then `Popen`
raises a `TypeError` (`None` in the argument list), which nothing catches,
so the unlink lines are never reached.  Returns the effect trace, the
next temp-file counter and the escaping exception if any. -/
def processSelection (env : Exec) (view : View) (settings : Settings) (encoding : String)
    (k : Nat) (sel : Region) : List Effect × Nat × Except PyErr Unit :=
  let (e1, r1) := saveSelectionToTempfile env view k sel encoding
  match r1 with
  | .error pe => (e1, k + 1, .error pe)
  | .ok pyOpt =>
    let (e2, styleFilename) := saveStyleToTempfile settings.styleConfig (k + 1)
    match pyOpt with
    | none =>
      (e1 ++ e2, k + 2, .error (.typeError "execv() arg 2 must contain only strings"))
    | some pyFilename =>
      let cmd := cmdOf settings k
      let outputErr := (env.yapf cmd).2
      let e3 : List Effect := [.spawn cmd, .readFile pyFilename encoding]
      let output := env.fileContent pyFilename encoding
      let e4 :=
        if outputErr = "" then [Effect.replaceText sel output]
        else stderrEffects view outputErr
      (e1 ++ e2 ++ e3 ++ e4 ++ [.unlink pyFilename, .unlink styleFilename],
       k + 2, .ok ())

/-- One iteration of `for region in self.view.sel()` (lines 157-200):
a non-empty region is processed as-is; an empty region is either widened
to the whole file (when `use_entire_file_if_no_selection` holds, its
default) or reported with `A selection is required` and skipped. -/
def runRegion (env : Exec) (view : View) (settings : Settings) (encoding : String)
    (k : Nat) (region : Region) : List Effect × Nat × Except PyErr Unit :=
  if region.a = region.b then
    if settings.useEntire then
      processSelection env view settings encoding k (Region.mk 0 view.size)
    else ([Effect.errorMessage "A selection is required"], k, .ok ())
  else processSelection env view settings encoding k region

/-- The loop over all regions of the selection, threading the temp-file
counter; an uncaught exception aborts the remaining iterations. -/
def runRegions (env : Exec) (view : View) (settings : Settings) (encoding : String) :
    List Region → Nat → List Effect × Except PyErr Unit
  | [], _ => ([], .ok ())
  | r :: rs, k =>
    let (effs, k2, res) := runRegion env view settings encoding k r
    match res with
    | .error pe => (effs, .error pe)
    | .ok _ =>
      let (effs2, res2) := runRegions env view settings encoding rs k2
      (effs ++ effs2, res2)

/-- The encoding the run uses: the view's encoding, with `Undefined`
falling back to `ascii` (lines 149-151). -/
def viewEncoding (view : View) : String :=
  if view.encoding = "Undefined" then "ascii" else view.encoding

/-- Embeds `YapfCommand.run` (lines 143-202). -/
def run (env : Exec) (view : View) (settings : Settings) : List Effect × Except PyErr Unit :=
  runRegions env view settings (viewEncoding view) view.sel 0

/-! ## Effect classifiers -/

/-- Is the effect a text replacement in the view? -/
def isReplace : Effect → Bool
  | .replaceText _ _ => true
  | _ => false

/-- Is the effect a modal error message? -/
def isErrMsg : Effect → Bool
  | .errorMessage _ => true
  | _ => false

/-- Is the effect a subprocess invocation? -/
def isSpawn : Effect → Bool
  | .spawn _ => true
  | _ => false

/-- Is the effect a temp-file creation? -/
def isCreateTemp : Effect → Bool
  | .createTemp _ => true
  | _ => false

/-- Effects that only talk to the user interface (the only effects
`smart_failure` can emit). -/
def isUi : Effect → Bool
  | .errorMessage _ => true
  | .eraseRegions _ => true
  | .addRegions _ _ _ _ => true
  | .showAtCenter _ => true
  | _ => false

/-- Does the effect use only the given encoding (trivially true for
effects that carry no encoding)? -/
def usesEncoding (enc : String) : Effect → Bool
  | .encodeText _ e => e = enc
  | .readFile _ e => e = enc
  | _ => true

/-- Did the computation succeed (no Python exception)? -/
def exceptIsOk {ε α : Type} : Except ε α → Bool
  | .ok _ => true
  | .error _ => false

/-! ## Helper lemmas: splitting -/

theorem splitChar_ne_nil (c : Char) (l : List Char) : splitChar c l ≠ [] := by
  cases l with
  | nil => simp [splitChar]
  | cons x xs =>
    rw [splitChar]
    split
    · simp
    · split <;> simp

theorem splitChar_of_not_mem {c : Char} {l : List Char} (h : c ∉ l) : splitChar c l = [l] := by
  induction l with
  | nil => rfl
  | cons x xs ih =>
    have hx : ¬x = c := fun e => h (by simp [e])
    have hxs : c ∉ xs := fun m => h (List.mem_cons_of_mem _ m)
    rw [splitChar, if_neg hx, ih hxs]

theorem splitChar_append_sep (c : Char) (xs ys : List Char) :
    splitChar c (xs ++ c :: ys) = splitChar c xs ++ splitChar c ys := by
  induction xs with
  | nil => simp [splitChar]
  | cons x xs ih =>
    by_cases hx : x = c
    · subst hx
      rw [List.cons_append, splitChar, if_pos rfl, ih, splitChar, if_pos rfl, List.cons_append]
    · rw [List.cons_append, splitChar, if_neg hx, ih, splitChar, if_neg hx]
      cases h : splitChar c xs with
      | nil => exact absurd h (splitChar_ne_nil c xs)
      | cons g gs => simp

theorem pySplit_of_not_mem {c : Char} {s : String} (h : c ∉ s.data) :
    pySplit c s = [s] := by
  unfold pySplit
  rw [splitChar_of_not_mem h]
  rfl

theorem getLastD_append_right {α : Type} (l1 : List α) (y : α) (ys : List α) (d : α) :
    (l1 ++ y :: ys).getLastD d = ys.getLastD y := by
  induction l1 generalizing d with
  | nil => exact List.getLastD_cons ..
  | cons x xs ih => rw [List.cons_append, List.getLastD_cons, ih]

/-! ## Helper lemmas: dictionaries and the style config -/

theorem dictSet_append {d : Dict} {k : String} (v : String) (h : ∀ p ∈ d, p.1 ≠ k) :
    dictSet d k v = d ++ [(k, v)] := by
  unfold dictSet
  rw [if_neg]
  simp only [List.any_eq_true, decide_eq_true_eq, not_exists, not_and]
  intro p hp
  exact fun e => h p hp e

/-! ## Helper lemmas: smart_failure shapes -/

theorem showContext_shape (view : View) (ctx : String) :
    (∃ e, showContext view ctx = ([], .error e)) ∨
      ∃ p, showContext view ctx = (centerOn view p, .ok ()) := by
  unfold showContext
  cases h : contextPoint view ctx with
  | error e => exact Or.inl ⟨e, rfl⟩
  | ok p => exact Or.inr ⟨p, rfl⟩

theorem smartFailure_exc (view : View) (e : UEErr) :
    smartFailure view (.exc e) =
      (Effect.errorMessage (failMsg e.reason e.message [("context", contextVal e.start)]) ::
         (showContext view (contextVal e.start)).1,
       (showContext view (contextVal e.start)).2) := by
  unfold smartFailure
  rcases h : showContext view (contextVal e.start) with ⟨t, r⟩
  simp [failureParse, dictGet, h]

theorem smartFailure_ui (view : View) (f : FailureInput) :
    ∀ x ∈ (smartFailure view f).1, isUi x = true := by
  unfold smartFailure
  cases hp : failureParse f with
  | error e => simp
  | ok t =>
    obtain ⟨a, b, tv⟩ := t
    cases hg : dictGet tv "context" with
    | none => simp only [hg]; simp [isUi]
    | some ctx =>
      simp only [hg]
      rcases showContext_shape view ctx with ⟨e2, he⟩ | ⟨p, he⟩ <;> rw [he] <;>
        simp [centerOn, isUi]

theorem smartFailure_ok_head (view : View) (f : FailureInput)
    (h : exceptIsOk (smartFailure view f).2 = true) :
    ∃ m t, (smartFailure view f).1 = Effect.errorMessage m :: t := by
  unfold smartFailure at h ⊢
  cases hp : failureParse f with
  | error e => rw [hp] at h; simp [exceptIsOk] at h
  | ok t =>
    obtain ⟨a, b, tv⟩ := t
    cases hg : dictGet tv "context" with
    | none => simp only [hg]; exact ⟨_, [], rfl⟩
    | some ctx =>
      simp only [hg]
      rcases hs : showContext view ctx with ⟨es, r⟩
      exact ⟨_, es, rfl⟩

theorem stderrEffects_ui (view : View) (s : String) :
    ∀ x ∈ stderrEffects view s, isUi x = true := by
  unfold stderrEffects
  rcases hs : smartFailure view (.str s) with ⟨es, r⟩
  have hui := smartFailure_ui view (.str s)
  rw [hs] at hui
  cases r with
  | ok _ => exact hui
  | error e =>
    intro x hx
    simp only [List.mem_append, List.mem_singleton] at hx
    rcases hx with hx | rfl
    · exact hui x hx
    · rfl

theorem stderrEffects_hasErr (view : View) (s : String) :
    (stderrEffects view s).any isErrMsg = true := by
  unfold stderrEffects
  rcases hs : smartFailure view (.str s) with ⟨es, r⟩
  cases r with
  | error e => simp [isErrMsg]
  | ok u =>
    obtain ⟨m, t, hh⟩ := smartFailure_ok_head view (.str s) (by rw [hs]; rfl)
    rw [hs] at hh
    have hh2 : es = Effect.errorMessage m :: t := hh
    subst hh2
    simp [isErrMsg]

/-! ## Helper lemmas: the style config build -/

theorem styleSections_aux (d : Dict) (acc : Dict)
    (hnd : (d.map (fun p => pyLower p.1)).Nodup)
    (hdisj : ∀ p ∈ d, pyLower p.1 ∉ acc.map Prod.fst) :
    d.foldl (fun secs p => cfgSet secs "style" p.1 p.2) [("style", acc)] =
      [("style", acc ++ d.map (fun p => (pyLower p.1, p.2)))] := by
  induction d generalizing acc with
  | nil => simp
  | cons p d ih =>
    rw [List.foldl_cons]
    have hset : cfgSet [("style", acc)] "style" p.1 p.2 =
        [("style", acc ++ [(pyLower p.1, p.2)])] := by
      unfold cfgSet
      have hnone : ∀ q ∈ acc, q.1 ≠ pyLower p.1 := by
        intro q hq e
        exact hdisj p (by simp) (by rw [← e]; exact List.mem_map_of_mem _ hq)
      simp [dictSet_append _ hnone]
    rw [hset]
    rw [List.map_cons, List.nodup_cons] at hnd
    have hdisj2 : ∀ q ∈ d, pyLower q.1 ∉ (acc ++ [(pyLower p.1, p.2)]).map Prod.fst := by
      intro q hq
      rw [List.map_append]
      simp only [List.mem_append, List.map_cons, List.map_nil, List.mem_singleton]
      rintro (hin | he)
      · exact hdisj q (List.mem_cons_of_mem _ hq) hin
      · exact hnd.1 (he ▸ List.mem_map_of_mem _ hq)
    rw [ih (acc ++ [(pyLower p.1, p.2)]) hnd.2 hdisj2]
    simp

theorem styleSections_eq (d : Dict) (hnd : (d.map (fun p => pyLower p.1)).Nodup) :
    styleSections d = [("style", d.map (fun p => (pyLower p.1, p.2)))] := by
  unfold styleSections
  rw [styleSections_aux d [] hnd (by simp)]
  simp

/-! ## Helper lemmas: run traces -/

theorem saveSelection_ok (env : Exec) (view : View) (k : Nat) (sel : Region)
    (enc bytes : String) (h : env.encode (view.substr sel) enc = .ok bytes) :
    saveSelectionToTempfile env view k sel enc =
      ([.createTemp (pyTmpName k), .encodeText (view.substr sel) enc,
        .writeFile (pyTmpName k) bytes], .ok (some (pyTmpName k))) := by
  simp only [saveSelectionToTempfile]
  rw [h]
  rfl


theorem processSelection_success (env : Exec) (view : View) (settings : Settings)
    (enc : String) (k : Nat) (sel : Region) (bytes out : String)
    (hencode : env.encode (view.substr sel) enc = .ok bytes)
    (hyapf : env.yapf (cmdOf settings k) = (out, "")) :
    processSelection env view settings enc k sel =
      ([.createTemp (pyTmpName k), .encodeText (view.substr sel) enc,
        .writeFile (pyTmpName k) bytes,
        .createTemp (tmpName (k + 1)),
        .writeFile (tmpName (k + 1)) (configWrite (styleSections settings.styleConfig)),
        .spawn (cmdOf settings k), .readFile (pyTmpName k) enc,
        .replaceText sel (env.fileContent (pyTmpName k) enc),
        .unlink (pyTmpName k), .unlink (tmpName (k + 1))], k + 2, .ok ()) := by
  simp only [processSelection, saveStyleToTempfile]
  rw [saveSelection_ok env view k sel enc bytes hencode, hyapf]
  simp

theorem processSelection_stderr (env : Exec) (view : View) (settings : Settings)
    (enc : String) (k : Nat) (sel : Region) (bytes out serr : String)
    (hencode : env.encode (view.substr sel) enc = .ok bytes)
    (hyapf : env.yapf (cmdOf settings k) = (out, serr))
    (hserr : ¬serr = "") :
    processSelection env view settings enc k sel =
      ([.createTemp (pyTmpName k), .encodeText (view.substr sel) enc,
        .writeFile (pyTmpName k) bytes,
        .createTemp (tmpName (k + 1)),
        .writeFile (tmpName (k + 1)) (configWrite (styleSections settings.styleConfig)),
        .spawn (cmdOf settings k), .readFile (pyTmpName k) enc] ++
        stderrEffects view serr ++ [.unlink (pyTmpName k), .unlink (tmpName (k + 1))],
       k + 2, .ok ()) := by
  simp only [processSelection, saveStyleToTempfile]
  rw [saveSelection_ok env view k sel enc bytes hencode, hyapf]
  simp [hserr]

theorem processSelection_encfail (env : Exec) (view : View) (settings : Settings)
    (enc : String) (k : Nat) (sel : Region) (e : UEErr)
    (hencode : env.encode (view.substr sel) enc = .error e) :
    (processSelection env view settings enc k sel).1 =
      ([.createTemp (pyTmpName k), .encodeText (view.substr sel) enc] ++
        (smartFailure view (.exc e)).1) ++
        (if exceptIsOk (smartFailure view (.exc e)).2 = true then
          [.createTemp (tmpName (k + 1)),
           .writeFile (tmpName (k + 1)) (configWrite (styleSections settings.styleConfig))]
         else []) ∧
    ¬(processSelection env view settings enc k sel).2.2 = .ok () := by
  simp only [processSelection, saveSelectionToTempfile, saveStyleToTempfile]
  rw [hencode]
  dsimp only
  rcases hs : smartFailure view (.exc e) with ⟨es, r⟩
  cases r with
  | ok u => simp [exceptIsOk]
  | error pe => simp [exceptIsOk]

theorem run_single (env : Exec) (view : View) (settings : Settings) (region : Region)
    (hsel : view.sel = [region]) :
    run env view settings =
      ((runRegion env view settings (viewEncoding view) 0 region).1,
       (runRegion env view settings (viewEncoding view) 0 region).2.2) := by
  unfold run
  rw [hsel]
  rcases h : runRegion env view settings (viewEncoding view) 0 region with ⟨effs, k2, res⟩
  simp only [runRegions]
  rw [h]
  cases res with
  | error pe => simp
  | ok u => cases u; simp [runRegions]

theorem runRegion_nonempty (env : Exec) (view : View) (settings : Settings)
    (enc : String) (k : Nat) (region : Region) (hne : ¬region.a = region.b) :
    runRegion env view settings enc k region =
      processSelection env view settings enc k region := by
  unfold runRegion
  rw [if_neg hne]

theorem runRegion_empty_entire (env : Exec) (view : View) (settings : Settings)
    (enc : String) (k : Nat) (region : Region) (hemp : region.a = region.b)
    (huse : settings.useEntire = true) :
    runRegion env view settings enc k region =
      processSelection env view settings enc k (Region.mk 0 view.size) := by
  unfold runRegion
  rw [if_pos hemp, if_pos huse]

theorem runRegion_empty_skip (env : Exec) (view : View) (settings : Settings)
    (enc : String) (k : Nat) (region : Region) (hemp : region.a = region.b)
    (huse : settings.useEntire = false) :
    runRegion env view settings enc k region =
      ([Effect.errorMessage "A selection is required"], k, .ok ()) := by
  unfold runRegion
  rw [if_pos hemp, if_neg (by simp [huse])]

/-! ## Helper lemmas: the one-encoding invariant -/

theorem isUi_usesEncoding (enc : String) (x : Effect) (h : isUi x = true) :
    usesEncoding enc x = true := by
  cases x <;> simp_all [isUi, usesEncoding]

theorem processSelection_usesEncoding (env : Exec) (view : View) (settings : Settings)
    (enc : String) (k : Nat) (sel : Region) :
    ∀ x ∈ (processSelection env view settings enc k sel).1, usesEncoding enc x = true := by
  intro x hx
  cases he : env.encode (view.substr sel) enc with
  | ok bytes =>
    rcases hy : env.yapf (cmdOf settings k) with ⟨o, serr⟩
    by_cases hserr : serr = ""
    · subst hserr
      rw [processSelection_success env view settings enc k sel bytes o he hy] at hx
      simp only [List.mem_cons, List.not_mem_nil, or_false] at hx
      rcases hx with rfl | rfl | rfl | rfl | rfl | rfl | rfl | rfl | rfl | rfl <;>
        simp [usesEncoding]
    · rw [processSelection_stderr env view settings enc k sel bytes o serr he hy hserr] at hx
      simp only [List.mem_append, List.mem_cons, List.not_mem_nil, or_false] at hx
      rcases hx with ((rfl | rfl | rfl | rfl | rfl | rfl | rfl) | hx) | (rfl | rfl)
      · simp [usesEncoding]
      · simp [usesEncoding]
      · simp [usesEncoding]
      · simp [usesEncoding]
      · simp [usesEncoding]
      · simp [usesEncoding]
      · simp [usesEncoding]
      · exact isUi_usesEncoding enc x (stderrEffects_ui view serr x hx)
      · simp [usesEncoding]
      · simp [usesEncoding]
  | error e =>
    have h2 := (processSelection_encfail env view settings enc k sel e he).1
    rw [h2] at hx
    have hui := smartFailure_ui view (.exc e)
    simp only [List.mem_append, List.mem_cons, List.not_mem_nil, or_false] at hx
    rcases hx with ((rfl | rfl) | hx) | hx2
    · simp [usesEncoding]
    · simp [usesEncoding]
    · exact isUi_usesEncoding enc x (hui x hx)
    · split at hx2 <;> simp only [List.mem_cons, List.not_mem_nil, or_false] at hx2
      rcases hx2 with rfl | rfl <;> simp [usesEncoding]

theorem runRegion_usesEncoding (env : Exec) (view : View) (settings : Settings)
    (enc : String) (k : Nat) (region : Region) :
    ∀ x ∈ (runRegion env view settings enc k region).1, usesEncoding enc x = true := by
  intro x hx
  unfold runRegion at hx
  by_cases h1 : region.a = region.b
  · rw [if_pos h1] at hx
    by_cases h2 : settings.useEntire
    · rw [if_pos h2] at hx
      exact processSelection_usesEncoding env view settings enc k _ x hx
    · rw [if_neg h2] at hx
      simp only [List.mem_cons, List.not_mem_nil, or_false] at hx
      subst hx
      rfl
  · rw [if_neg h1] at hx
    exact processSelection_usesEncoding env view settings enc k region x hx

theorem runRegions_usesEncoding (env : Exec) (view : View) (settings : Settings)
    (enc : String) (rs : List Region) :
    ∀ (k : Nat), ∀ x ∈ (runRegions env view settings enc rs k).1, usesEncoding enc x = true := by
  induction rs with
  | nil => intro k x hx; simp [runRegions] at hx
  | cons r rs ih =>
    intro k x hx
    simp only [runRegions] at hx
    rcases h : runRegion env view settings enc k r with ⟨effs, k2, res⟩
    rw [h] at hx
    have hr := runRegion_usesEncoding env view settings enc k r
    rw [h] at hr
    cases res with
    | error pe =>
      dsimp only at hx
      exact hr x hx
    | ok u =>
      dsimp only at hx
      rcases List.mem_append.mp hx with hx | hx
      · exact hr x hx
      · exact ih k2 x hx

/-! ## Helper lemmas: the detail-collection loop -/

theorem pySplit_two_mem {c : Char} {s k v : String} (h : pySplit c s = [k, v]) :
    c ∈ s.data := by
  by_contra hc
  rw [pySplit_of_not_mem hc] at h
  simp at h

theorem string_data_ne_nil {s : String} (h : ¬s = "") : ¬s.data = [] := by
  intro hd
  apply h
  cases s
  simp_all

theorem procElement_assign (st : LoopSt) (el key value : String)
    (hne : ¬pyStrip el = "")
    (hsplit : pySplit '=' (pyStrip el) = [key, value])
    (hv : ¬value = "") :
    procElement st el = .ok ⟨dictSet st.tval key (pyRstrip ',' value),
      decide (value.data.getLastD ' ' = ','), some key⟩ := by
  simp only [procElement]
  rw [if_neg hne, if_pos (pySplit_two_mem hsplit), hsplit]
  cases hgl : value.data.getLast? with
  | none => exact absurd (List.getLast?_eq_none_iff.mp hgl) (string_data_ne_nil hv)
  | some l => simp [List.getLastD_eq_getLast?, hgl]

theorem procElement_extend (st : LoopSt) (el k0 v0 : String)
    (hne : ¬pyStrip el = "") (hnoeq : '=' ∉ (pyStrip el).data)
    (hkey : st.key = some k0) (hget : dictGet st.tval k0 = some v0)
    (hsc : st.stripped_comma = true) :
    procElement st el =
      .ok ⟨dictSet st.tval k0 (v0 ++ (", " ++ pyStrip el)), false, some k0⟩ := by
  simp only [procElement]
  rw [if_neg hne, if_neg hnoeq, hsc, hkey]
  dsimp only
  rw [hget]
  simp

/-! ## Claim theorems -/

/-- C1: for every failure input, `failure_parser` extracts a location by
text-scraping rules: a string input is reduced to its last line, split on
colons into an error name (first field), a message (second field) and a
detail (the rest); in the detail, elements containing `=` are split into
key/value and stored (with trailing-comma stripping recorded), and
comma-split fragments are re-joined onto the previous key; the one
special-cased exception type, `UnicodeEncodeError`, instead yields a
`context` entry holding a character offset (from the exception's `start`
attribute, or from the integer after the last `-` of the message). -/
theorem failureParse_scrape_rules :
    (∀ e : UEErr, failureParse (.exc e) =
        .ok (e.reason, e.message, [("context", contextVal e.start)]))
    ∧ (∀ s f0 f1 rest, pySplit ':' (pyLastLine s) = f0 :: f1 :: rest →
        ¬f0 = "UnicodeEncodeError" →
        failureParse (.str s) =
          (collectDetail (detailOf (pyLastLine s))).map (fun tv => (f0, f1, tv)))
    ∧ (∀ s f1 rest n, pySplit ':' (pyLastLine s) = "UnicodeEncodeError" :: f1 :: rest →
        pyInt ((pySplit '-' f1).getLastD "") = some n →
        failureParse (.str s) = .ok ("UnicodeEncodeError", f1, [("context", contextVal n)]))
    ∧ (∀ st el key value, ¬pyStrip el = "" → pySplit '=' (pyStrip el) = [key, value] →
        ¬value = "" → procElement st el = .ok ⟨dictSet st.tval key (pyRstrip ',' value),
          decide (value.data.getLastD ' ' = ','), some key⟩)
    ∧ (∀ st el k0 v0, ¬pyStrip el = "" → '=' ∉ (pyStrip el).data →
        st.key = some k0 → dictGet st.tval k0 = some v0 → st.stripped_comma = true →
        procElement st el =
          .ok ⟨dictSet st.tval k0 (v0 ++ (", " ++ pyStrip el)), false, some k0⟩) := by
  refine ⟨fun e => rfl, ?_, ?_, procElement_assign, procElement_extend⟩
  · intro s f0 f1 rest hsplit hue
    simp only [failureParse]
    rw [hsplit]
    dsimp only
    rw [if_neg hue]
  · intro s f1 rest n hsplit hint
    simp only [failureParse]
    rw [hsplit]
    dsimp only
    rw [if_pos rfl, hint]

/-- Witness for C1: the scraping rules evaluated at concrete inputs — a
generic `ValueError` traceback line, a `UnicodeEncodeError` stderr line,
an exception object, a `key=value,` element and a re-joined fragment. -/
theorem failureParse_scrape_rules_witness :
    failureParse (.exc ⟨"ordinal not in range(128)", "", 7⟩) =
      .ok ("ordinal not in range(128)", "", [("context", "(\"\", 7)")])
    ∧ failureParse (.str "trace\nValueError: bad: pos=(1, 2) size=3") =
        (collectDetail (detailOf (pyLastLine "trace\nValueError: bad: pos=(1, 2) size=3"))).map
          (fun tv => ("ValueError", " bad", tv))
    ∧ failureParse (.str "UnicodeEncodeError: 'ascii' codec can't encode characters in position 175337-175339: ordinal not in range(128)") =
        .ok ("UnicodeEncodeError",
          " 'ascii' codec can't encode characters in position 175337-175339",
          [("context", "(\"\", 175339)")])
    ∧ procElement ⟨[], false, none⟩ "pos=(1," =
        .ok ⟨[("pos", "(1")], decide ((String.data "(1,").getLastD ' ' = ','), some "pos"⟩
    ∧ procElement ⟨[("pos", "(1")], true, some "pos"⟩ "2)" =
        .ok ⟨[("pos", "(1, 2)")], false, some "pos"⟩ := by
  refine ⟨failureParse_scrape_rules.1 ⟨"ordinal not in range(128)", "", 7⟩, ?_, ?_, ?_, ?_⟩
  · exact failureParse_scrape_rules.2.1 "trace\nValueError: bad: pos=(1, 2) size=3"
      "ValueError" " bad" [" pos=(1, 2) size=3"] (by decide) (by decide)
  · exact failureParse_scrape_rules.2.2.1
      "UnicodeEncodeError: 'ascii' codec can't encode characters in position 175337-175339: ordinal not in range(128)"
      " 'ascii' codec can't encode characters in position 175337-175339"
      [" ordinal not in range(128)"] 175339 (by decide) (by decide)
  · have h := failureParse_scrape_rules.2.2.2.1 ⟨[], false, none⟩ "pos=(1," "pos" "(1,"
      (by decide) (by decide) (by decide)
    rw [h]
    decide
  · have h := failureParse_scrape_rules.2.2.2.2 ⟨[("pos", "(1")], true, some "pos"⟩ "2)"
      "pos" "(1" (by decide) (by decide) rfl rfl rfl
    rw [h]
    decide

/-- C8: `failure_parser` is partial on string inputs — when the last line
of the input holds no colon, the two-element unpack of
`lastline.split(':')[0:2]` fails, so the function raises instead of
returning a parsed result. -/
theorem failureParse_no_colon_raises (s : String) (h : ':' ∉ (pyLastLine s).data) :
    failureParse (.str s) = .error (.valueError "need more than 1 value to unpack") := by
  simp only [failureParse]
  rw [pySplit_of_not_mem h]

/-- Witness for C8: a stderr string whose last line has no colon. -/
theorem failureParse_no_colon_raises_witness :
    failureParse (.str "yapf crashed without a traceback") =
      .error (.valueError "need more than 1 value to unpack") :=
  failureParse_no_colon_raises "yapf crashed without a traceback" (by decide)

/-- C9: a `UnicodeEncodeError` exception object yields its `reason` as the
error name, its `message` as the message, and a `context` entry encoding
its `start` offset (the beginning of the unencodable range); a stderr
string whose last line names `UnicodeEncodeError` instead encodes the
integer after the last `-` of the message field — the end `B` of the
reported `position A-B` range. -/
theorem failureParse_ue_offsets :
    (∀ e : UEErr, failureParse (.exc e) =
        .ok (e.reason, e.message, [("context", contextVal e.start)]))
    ∧ (∀ s f1 rest pre posStr n,
        pySplit ':' (pyLastLine s) = "UnicodeEncodeError" :: f1 :: rest →
        f1 = pre ++ "-" ++ posStr → '-' ∉ posStr.data → pyInt posStr = some n →
        failureParse (.str s) =
          .ok ("UnicodeEncodeError", f1, [("context", contextVal n)])) := by
  refine ⟨fun e => rfl, ?_⟩
  intro s f1 rest pre posStr n hsplit hf1 hdash hint
  have hdata : f1.data = pre.data ++ '-' :: posStr.data := by
    rw [hf1, String.data_append, String.data_append]
    simp
  have hlast : (pySplit '-' f1).getLastD "" = posStr := by
    unfold pySplit
    rw [hdata, splitChar_append_sep, splitChar_of_not_mem hdash, List.map_append]
    simp only [List.map_cons, List.map_nil]
    rw [getLastD_append_right]
    rfl
  simp only [failureParse]
  rw [hsplit]
  dsimp only
  rw [if_pos rfl, hlast, hint]

/-- Witness for C9: a concrete exception object, and the yapf stderr line
from the source comment, whose `position 175337-175339` range yields the
end offset `175339`. -/
theorem failureParse_ue_offsets_witness :
    failureParse (.exc ⟨"surrogates not allowed", "", 12⟩) =
      .ok ("surrogates not allowed", "", [("context", "(\"\", 12)")])
    ∧ failureParse (.str "UnicodeEncodeError: 'ascii' codec can't encode characters in position 175337-175339: ordinal not in range(128)") =
        .ok ("UnicodeEncodeError",
          " 'ascii' codec can't encode characters in position 175337-175339",
          [("context", "(\"\", 175339)")]) := by
  refine ⟨failureParse_ue_offsets.1 ⟨"surrogates not allowed", "", 12⟩, ?_⟩
  exact failureParse_ue_offsets.2
    "UnicodeEncodeError: 'ascii' codec can't encode characters in position 175337-175339: ordinal not in range(128)"
    " 'ascii' codec can't encode characters in position 175337-175339"
    [" ordinal not in range(128)"]
    " 'ascii' codec can't encode characters in position 175337" "175339" 175339
    (by decide) (by decide) (by decide) (by decide)

/-! ## Concrete worlds used by the witnesses -/

/-- A concrete view for evaluating the theorems on explicit inputs. -/
def demoView (sel : List Region) (enc : String) : View :=
  { encoding := enc, size := 10, sel := sel,
    substr := fun _ => "x=1", text_point := fun r c => r * 100 + c,
    line := fun p => ⟨p.toNat, p.toNat + 1⟩ }

/-- A world whose encoder succeeds, whose yapf emits no stderr and whose
formatted file reads back as `x = 1`. -/
def demoEnvOk : Exec :=
  { encode := fun t _ => .ok t, yapf := fun _ => ("", ""),
    fileContent := fun _ _ => "x = 1\n" }

/-- A world whose yapf emits a stderr string whose last line has no colon
(so `smart_failure` raises while parsing it). -/
def demoEnvErr : Exec :=
  { encode := fun t _ => .ok t, yapf := fun _ => ("", "boom"),
    fileContent := fun _ _ => "" }

/-- A world whose encoder always raises a `UnicodeEncodeError` at offset 7. -/
def demoEnvEncFail : Exec :=
  { encode := fun _ _ => .error ⟨"ordinal not in range(128)", "", 7⟩,
    yapf := fun _ => ("", ""), fileContent := fun _ _ => "" }

/-- Settings with no recognized key present (all defaults apply). -/
def demoSettings : Settings := ⟨none, none, none⟩

/-- The encode attempt is recorded in the trace on every path of
`processSelection`. -/
theorem processSelection_encodes (env : Exec) (view : View) (settings : Settings)
    (enc : String) (k : Nat) (sel : Region) :
    Effect.encodeText (view.substr sel) enc ∈ (processSelection env view settings enc k sel).1 := by
  cases he : env.encode (view.substr sel) enc with
  | ok bytes =>
    rcases hy : env.yapf (cmdOf settings k) with ⟨o, serr⟩
    by_cases hserr : serr = ""
    · subst hserr
      rw [processSelection_success env view settings enc k sel bytes o he hy]
      simp
    · rw [processSelection_stderr env view settings enc k sel bytes o serr he hy hserr]
      simp
  | error e =>
    rw [(processSelection_encfail env view settings enc k sel e he).1]
    simp

/-- C2: for a run over a non-empty selection whose text encodes, the
selection's text is replaced by the formatter's output (the temp file
read back) exactly when yapf's stderr is the empty string; on a non-empty
stderr no replacement happens and an error is reported instead. -/
theorem run_replace_iff_stderr_empty (env : Exec) (view : View) (settings : Settings)
    (region : Region) (bytes out serr : String)
    (hsel : view.sel = [region]) (hne : ¬region.a = region.b)
    (hencode : env.encode (view.substr region) (viewEncoding view) = .ok bytes)
    (hyapf : env.yapf (cmdOf settings 0) = (out, serr)) :
    (serr = "" →
      Effect.replaceText region (env.fileContent (pyTmpName 0) (viewEncoding view)) ∈
          (run env view settings).1 ∧
        (run env view settings).1.countP isErrMsg = 0)
    ∧ (¬serr = "" →
      (run env view settings).1.countP isReplace = 0 ∧
        (run env view settings).1.any isErrMsg = true) := by
  rw [run_single env view settings region hsel,
      runRegion_nonempty env view settings (viewEncoding view) 0 region hne]
  dsimp only
  constructor
  · intro h
    subst h
    rw [processSelection_success env view settings (viewEncoding view) 0 region bytes out
          hencode hyapf]
    constructor
    · simp
    · simp [isErrMsg]
  · intro h
    rw [processSelection_stderr env view settings (viewEncoding view) 0 region bytes out serr
          hencode hyapf h]
    constructor
    · have h1 : (stderrEffects view serr).countP isReplace = 0 := by
        rw [List.countP_eq_zero]
        intro a ha
        have hui := stderrEffects_ui view serr a ha
        cases a <;> simp_all [isUi, isReplace]
      simp [List.countP_append, h1, isReplace]
    · have h2 := stderrEffects_hasErr view serr
      simp [List.any_append, h2]

/-- Witness for C2, both directions: a clean yapf run on one world and a
noisy one on another. -/
theorem run_replace_iff_stderr_empty_witness :
    (("" : String) = "" →
      Effect.replaceText ⟨0, 5⟩ (demoEnvOk.fileContent (pyTmpName 0)
          (viewEncoding (demoView [⟨0, 5⟩] "utf-8"))) ∈
          (run demoEnvOk (demoView [⟨0, 5⟩] "utf-8") demoSettings).1 ∧
        (run demoEnvOk (demoView [⟨0, 5⟩] "utf-8") demoSettings).1.countP isErrMsg = 0)
    ∧ (¬("boom" : String) = "" →
      (run demoEnvErr (demoView [⟨0, 5⟩] "utf-8") demoSettings).1.countP isReplace = 0 ∧
        (run demoEnvErr (demoView [⟨0, 5⟩] "utf-8") demoSettings).1.any isErrMsg = true) :=
  ⟨(run_replace_iff_stderr_empty demoEnvOk (demoView [⟨0, 5⟩] "utf-8") demoSettings
      ⟨0, 5⟩ "x=1" "" "" rfl (by decide) rfl rfl).1,
   (run_replace_iff_stderr_empty demoEnvErr (demoView [⟨0, 5⟩] "utf-8") demoSettings
      ⟨0, 5⟩ "x=1" "" "boom" rfl (by decide) rfl rfl).2⟩

/-- C4: failures are surfaced via modal messages: an encoding failure
routes the exception through `smart_failure`, whose first effect is the
modal message; a non-empty stderr on which `smart_failure` raises is
silently caught and the raw stderr text is shown in a modal instead, with
the run finishing normally. -/
theorem run_failures_surfaced (env : Exec) (view : View) (settings : Settings)
    (region : Region) (e : UEErr) (bytes out serr : String)
    (hsel : view.sel = [region]) (hne : ¬region.a = region.b) :
    (env.encode (view.substr region) (viewEncoding view) = .error e →
      (run env view settings).1.any isErrMsg = true)
    ∧ (env.encode (view.substr region) (viewEncoding view) = .ok bytes →
       env.yapf (cmdOf settings 0) = (out, serr) → ¬serr = "" →
       exceptIsOk (smartFailure view (.str serr)).2 = false →
         Effect.errorMessage serr ∈ (run env view settings).1 ∧
           (run env view settings).2 = .ok ()) := by
  rw [run_single env view settings region hsel,
      runRegion_nonempty env view settings (viewEncoding view) 0 region hne]
  dsimp only
  constructor
  · intro hencode
    rw [(processSelection_encfail env view settings (viewEncoding view) 0 region e hencode).1]
    rw [smartFailure_exc view e]
    simp [List.any_append, isErrMsg]
  · intro hencode hyapf hserr hsf
    rw [processSelection_stderr env view settings (viewEncoding view) 0 region bytes out serr
          hencode hyapf hserr]
    dsimp only
    constructor
    · have hmem : Effect.errorMessage serr ∈ stderrEffects view serr := by
        unfold stderrEffects
        rcases hs : smartFailure view (.str serr) with ⟨es, r⟩
        rw [hs] at hsf
        cases r with
        | ok u => simp [exceptIsOk] at hsf
        | error pe => simp
      simp [List.mem_append, hmem]
    · rfl

/-- Witness for C4: an encoding failure on one world; on the other, the
stderr `boom` (no colon in its last line) makes `smart_failure` raise and
the raw text is shown while the run still succeeds. -/
theorem run_failures_surfaced_witness :
    (demoEnvEncFail.encode ((demoView [⟨0, 5⟩] "ascii").substr ⟨0, 5⟩)
        (viewEncoding (demoView [⟨0, 5⟩] "ascii")) =
          .error ⟨"ordinal not in range(128)", "", 7⟩ →
      (run demoEnvEncFail (demoView [⟨0, 5⟩] "ascii") demoSettings).1.any isErrMsg = true)
    ∧ (demoEnvErr.encode ((demoView [⟨0, 5⟩] "utf-8").substr ⟨0, 5⟩)
         (viewEncoding (demoView [⟨0, 5⟩] "utf-8")) = .ok "x=1" →
       demoEnvErr.yapf (cmdOf demoSettings 0) = ("", "boom") → ¬("boom" : String) = "" →
       exceptIsOk (smartFailure (demoView [⟨0, 5⟩] "utf-8") (.str "boom")).2 = false →
         Effect.errorMessage "boom" ∈
             (run demoEnvErr (demoView [⟨0, 5⟩] "utf-8") demoSettings).1 ∧
           (run demoEnvErr (demoView [⟨0, 5⟩] "utf-8") demoSettings).2 = .ok ()) :=
  ⟨(run_failures_surfaced demoEnvEncFail (demoView [⟨0, 5⟩] "ascii") demoSettings
      ⟨0, 5⟩ ⟨"ordinal not in range(128)", "", 7⟩ "" "" "" rfl (by decide)).1,
   (run_failures_surfaced demoEnvErr (demoView [⟨0, 5⟩] "utf-8") demoSettings
      ⟨0, 5⟩ ⟨"", "", 0⟩ "x=1" "" "boom" rfl (by decide)).2⟩

/-- C5: per region of the selection set: a non-empty region is formatted
as-is; an empty region is widened to the whole file (offset `0` to the
view's size) when `use_entire_file_if_no_selection` holds (its default);
otherwise `A selection is required` is shown and nothing is formatted. -/
theorem run_selection_resolution (env : Exec) (view : View) (settings : Settings)
    (region : Region) (hsel : view.sel = [region]) :
    (¬region.a = region.b →
      Effect.encodeText (view.substr region) (viewEncoding view) ∈ (run env view settings).1)
    ∧ (region.a = region.b → settings.useEntire = true →
      Effect.encodeText (view.substr (Region.mk 0 view.size)) (viewEncoding view) ∈
        (run env view settings).1)
    ∧ (region.a = region.b → settings.useEntire = false →
      run env view settings = ([Effect.errorMessage "A selection is required"], .ok ())) := by
  rw [run_single env view settings region hsel]
  dsimp only
  refine ⟨?_, ?_, ?_⟩
  · intro hne
    rw [runRegion_nonempty env view settings (viewEncoding view) 0 region hne]
    exact processSelection_encodes env view settings (viewEncoding view) 0 region
  · intro hemp huse
    rw [runRegion_empty_entire env view settings (viewEncoding view) 0 region hemp huse]
    exact processSelection_encodes env view settings (viewEncoding view) 0 (Region.mk 0 view.size)
  · intro hemp huse
    rw [runRegion_empty_skip env view settings (viewEncoding view) 0 region hemp huse]

/-- Witness for C5: the non-empty case, the default whole-file widening of
an empty region, and the `use_entire_file_if_no_selection = false` skip. -/
theorem run_selection_resolution_witness :
    (¬(0 : Nat) = 5 →
      Effect.encodeText ((demoView [⟨0, 5⟩] "utf-8").substr ⟨0, 5⟩)
          (viewEncoding (demoView [⟨0, 5⟩] "utf-8")) ∈
        (run demoEnvOk (demoView [⟨0, 5⟩] "utf-8") demoSettings).1)
    ∧ ((3 : Nat) = 3 → demoSettings.useEntire = true →
      Effect.encodeText ((demoView [⟨3, 3⟩] "utf-8").substr
            (Region.mk 0 (demoView [⟨3, 3⟩] "utf-8").size))
          (viewEncoding (demoView [⟨3, 3⟩] "utf-8")) ∈
        (run demoEnvOk (demoView [⟨3, 3⟩] "utf-8") demoSettings).1)
    ∧ ((3 : Nat) = 3 → (Settings.mk (some false) none none).useEntire = false →
      run demoEnvOk (demoView [⟨3, 3⟩] "utf-8") (Settings.mk (some false) none none) =
        ([Effect.errorMessage "A selection is required"], .ok ())) :=
  ⟨(run_selection_resolution demoEnvOk (demoView [⟨0, 5⟩] "utf-8") demoSettings ⟨0, 5⟩ rfl).1,
   (run_selection_resolution demoEnvOk (demoView [⟨3, 3⟩] "utf-8") demoSettings ⟨3, 3⟩ rfl).2.1,
   (run_selection_resolution demoEnvOk (demoView [⟨3, 3⟩] "utf-8")
      (Settings.mk (some false) none none) ⟨3, 3⟩ rfl).2.2⟩

/-- C6: for a formatted selection, yapf is spawned exactly once, with the
configured command (`yapf_command`, default `/usr/local/bin/yapf`),
`--style=<style temp file>`, `--verify`, `--in-place` and the temp source
file name, and the result is then read back from that same temp file. -/
theorem run_spawns_yapf_once (env : Exec) (view : View) (settings : Settings)
    (region : Region) (bytes out : String)
    (hsel : view.sel = [region]) (hne : ¬region.a = region.b)
    (hencode : env.encode (view.substr region) (viewEncoding view) = .ok bytes)
    (hyapf : env.yapf (cmdOf settings 0) = (out, "")) :
    (run env view settings).1.countP isSpawn = 1
    ∧ Effect.spawn [settings.yapf, "--style=" ++ tmpName 1, "--verify", "--in-place",
        pyTmpName 0] ∈ (run env view settings).1
    ∧ [Effect.spawn (cmdOf settings 0),
       Effect.readFile (pyTmpName 0) (viewEncoding view)] <:+: (run env view settings).1
    ∧ Settings.yapf ⟨settings.use_entire_file_if_no_selection, none, settings.config⟩ =
        "/usr/local/bin/yapf" := by
  rw [run_single env view settings region hsel,
      runRegion_nonempty env view settings (viewEncoding view) 0 region hne,
      processSelection_success env view settings (viewEncoding view) 0 region bytes out
        hencode hyapf]
  dsimp only
  refine ⟨?_, ?_, ?_, rfl⟩
  · simp [isSpawn]
  · simp [cmdOf]
  · exact ⟨[.createTemp (pyTmpName 0), .encodeText (view.substr region) (viewEncoding view),
            .writeFile (pyTmpName 0) bytes, .createTemp (tmpName 1),
            .writeFile (tmpName 1) (configWrite (styleSections settings.styleConfig))],
           [.replaceText region (env.fileContent (pyTmpName 0) (viewEncoding view)),
            .unlink (pyTmpName 0), .unlink (tmpName 1)], by simp⟩

/-- Witness for C6 at a concrete world. -/
theorem run_spawns_yapf_once_witness :
    (run demoEnvOk (demoView [⟨0, 5⟩] "utf-8") demoSettings).1.countP isSpawn = 1
    ∧ Effect.spawn [demoSettings.yapf, "--style=" ++ tmpName 1, "--verify", "--in-place",
        pyTmpName 0] ∈ (run demoEnvOk (demoView [⟨0, 5⟩] "utf-8") demoSettings).1
    ∧ [Effect.spawn (cmdOf demoSettings 0),
       Effect.readFile (pyTmpName 0) (viewEncoding (demoView [⟨0, 5⟩] "utf-8"))] <:+:
        (run demoEnvOk (demoView [⟨0, 5⟩] "utf-8") demoSettings).1
    ∧ Settings.yapf ⟨demoSettings.use_entire_file_if_no_selection, none, demoSettings.config⟩ =
        "/usr/local/bin/yapf" :=
  run_spawns_yapf_once demoEnvOk (demoView [⟨0, 5⟩] "utf-8") demoSettings ⟨0, 5⟩
    "x=1" "" rfl (by decide) rfl rfl

/-- C10: when the view reports its encoding as `Undefined`, every
encoding used by the run — the `encode` of the selection text and the
`codecs.open` read-back — is `ascii`. -/
theorem run_undefined_encoding_ascii (env : Exec) (view : View) (settings : Settings)
    (hund : view.encoding = "Undefined") :
    (run env view settings).1.all (usesEncoding "ascii") = true := by
  have henc : viewEncoding view = "ascii" := by simp [viewEncoding, hund]
  rw [List.all_eq_true]
  intro x hx
  unfold run at hx
  have h := runRegions_usesEncoding env view settings (viewEncoding view) view.sel 0 x hx
  rw [henc] at h
  exact h

/-- Witness for C10 at a concrete world with `Undefined` encoding. -/
theorem run_undefined_encoding_ascii_witness :
    (run demoEnvOk (demoView [⟨0, 5⟩] "Undefined") demoSettings).1.all
      (usesEncoding "ascii") = true :=
  run_undefined_encoding_ascii demoEnvOk (demoView [⟨0, 5⟩] "Undefined") demoSettings rfl

/-- C3 fails on the code (the claim states the intended behaviour): when
the selection cannot be encoded, `save_selection_to_tempfile` has already
created the temp source file and leaves it behind; `run` then still
creates the temp style file, and `subprocess.Popen` receives
`py_filename = None` and raises an uncaught `TypeError`, so the
`os.unlink` lines are never reached and neither temp file is deleted.
This theorem evaluates `run` at such an input. -/
theorem run_encfail_leaks_tempfiles :
    Effect.createTemp (pyTmpName 0) ∈
        (run demoEnvEncFail (demoView [⟨0, 5⟩] "ascii") demoSettings).1
    ∧ Effect.createTemp (tmpName 1) ∈
        (run demoEnvEncFail (demoView [⟨0, 5⟩] "ascii") demoSettings).1
    ∧ Effect.unlink (pyTmpName 0) ∉
        (run demoEnvEncFail (demoView [⟨0, 5⟩] "ascii") demoSettings).1
    ∧ Effect.unlink (tmpName 1) ∉
        (run demoEnvEncFail (demoView [⟨0, 5⟩] "ascii") demoSettings).1
    ∧ (run demoEnvEncFail (demoView [⟨0, 5⟩] "ascii") demoSettings).2 =
        .error (.typeError "execv() arg 2 must contain only strings") := by
  decide

/-- C7: `save_style_to_tempfile` builds a config with the single section
`style` holding every key/value pair of the style dictionary — option
names pass through the config writer's `optionxform` and are stored
lowercased, option names being case-insensitive in this format — writes
it to a fresh temp file and returns that file's name. -/
theorem saveStyle_single_style_section (d : Dict) (k : Nat)
    (hnd : (d.map (fun p => pyLower p.1)).Nodup) :
    (saveStyleToTempfile d k).2 = tmpName k
    ∧ (saveStyleToTempfile d k).1 =
      [.createTemp (tmpName k),
       .writeFile (tmpName k)
         ("[style]\n" ++
          String.join (d.map (fun p => pyLower p.1 ++ " = " ++ nlReplace p.2 ++ "\n")) ++
          "\n")] := by
  refine ⟨rfl, ?_⟩
  unfold saveStyleToTempfile
  rw [styleSections_eq d hnd]
  simp only [configWrite, List.map_cons, List.map_nil, List.map_map]
  rfl

/-- Witness for C7: a style dictionary with a lowercase and an uppercase
key, written at temp-file index 1. -/
theorem saveStyle_single_style_section_witness :
    (saveStyleToTempfile [("based_on_style", "pep8"), ("COLUMN_LIMIT", "80")] 1).2 = tmpName 1
    ∧ (saveStyleToTempfile [("based_on_style", "pep8"), ("COLUMN_LIMIT", "80")] 1).1 =
      [.createTemp (tmpName 1),
       .writeFile (tmpName 1)
         ("[style]\n" ++
          String.join ([("based_on_style", "pep8"), ("COLUMN_LIMIT", "80")].map
            (fun p => pyLower p.1 ++ " = " ++ nlReplace p.2 ++ "\n")) ++
          "\n")] :=
  saveStyle_single_style_section [("based_on_style", "pep8"), ("COLUMN_LIMIT", "80")] 1
    (by decide)

/-- C7 as stated fails on dictionaries whose keys collide after
lowercasing: the config writer stores option names through `optionxform`
(lowercasing) and overwrites, so for the dictionary with pairs
`("A", "x")` and `("a", "y")` the written config is
`[style]\na = y\n\n` — the pair `("A", "x")` is not held in any form (its
value `x` does not even occur in the file), so the config does not hold
every key/value pair of the dictionary. -/
theorem saveStyle_case_collision_counterexample :
    (saveStyleToTempfile [("A", "x"), ("a", "y")] 0).1 =
      [.createTemp (tmpName 0), .writeFile (tmpName 0) "[style]\na = y\n\n"]
    ∧ 'x' ∉ "[style]\na = y\n\n".data := by
  decide

end PyYapf
